import Mathlib

/-!
Verification development for the Code Archaeologist repository: a shallow
embedding of the code-to-graph extraction pipeline, the graph store adapter,
the natural-language query engine with its bounded retry loop, and the chat
and ingestion frontend handlers, together with theorems about the documented
properties of each component.
-/

set_option maxHeartbeats 1000000

/-! ## Query engine: rows, outcomes, retry loop -/

/-- A result row returned by the graph store: a mapping of column name to
value, modelled as an association list. -/
abbrev Row := List (String × String)

/-- Outcome of the generate/execute retry loop: either the executed query
together with its result rows, or a terminal failure carrying the last
diagnostic. -/
inductive QueryOutcome where
  | success (query : String) (rows : List Row)
  | failure (lastDiag : String)
deriving DecidableEq

/-- Modelled from the spec: the `process_query` retry loop of the backend
RAG service (`rag_service.py` is not among the sources; the loop is
described in §4.5 and RAG_SERVICE.md). The query translator is modelled as
a function from the attempt index to the produced query string (attempt 0
is the plain prompt, later attempts the enriched prompts); the store is a
function from a query string to either rows or a diagnostic. The first
argument of the recursion is the number of retries still allowed after the
current attempt. The result pairs the outcome with the number of
generate/execute attempts actually performed. -/
def attemptLoop (translate : Nat → String) (exec : String → Except String (List Row)) :
    Nat → Nat → QueryOutcome × Nat
  | 0, idx =>
    match exec (translate idx) with
    | Except.ok rows => (QueryOutcome.success (translate idx) rows, 1)
    | Except.error d => (QueryOutcome.failure d, 1)
  | Nat.succ r, idx =>
    match exec (translate idx) with
    | Except.ok rows => (QueryOutcome.success (translate idx) rows, 1)
    | Except.error _ =>
      ((attemptLoop translate exec r (idx + 1)).1,
       (attemptLoop translate exec r (idx + 1)).2 + 1)

/-- Modelled from the spec: `process_query(question, max_retries = 2)` runs the
generate/execute loop with `max_retries` additional attempts after the first. -/
def process_query (translate : Nat → String) (exec : String → Except String (List Row))
    (maxRetries : Nat) : QueryOutcome × Nat :=
  attemptLoop translate exec maxRetries 0

lemma attemptLoop_all_fail (translate : Nat → String)
    (exec : String → Except String (List Row)) (diag : Nat → String)
    (h : ∀ i, exec (translate i) = Except.error (diag i)) :
    ∀ retries idx, attemptLoop translate exec retries idx =
      (QueryOutcome.failure (diag (idx + retries)), retries + 1) := by
  intro retries
  induction retries with
  | zero =>
    intro idx
    simp [attemptLoop, h idx]
  | succ n ih =>
    intro idx
    have harith : idx + 1 + n = idx + (n + 1) := by omega
    simp [attemptLoop, h idx, ih (idx + 1), harith]

/-- Claim C1: with a translator whose queries the store rejects on every
attempt, the executor performs exactly `maxRetries + 1` generate/execute
attempts and terminates with a failure carrying the last attempt's
diagnostic; it never succeeds or returns an empty success after
exhausting the retries. -/
theorem process_query_retry_bound (translate : Nat → String)
    (exec : String → Except String (List Row)) (diag : Nat → String)
    (h : ∀ i, exec (translate i) = Except.error (diag i)) (maxRetries : Nat) :
    process_query translate exec maxRetries =
      (QueryOutcome.failure (diag maxRetries), maxRetries + 1) := by
  have := attemptLoop_all_fail translate exec diag h maxRetries 0
  simpa [process_query] using this

/-- Witness for C1 at the default bound `max_retries = 2`: a store that
rejects every query makes the executor fail after exactly 3 attempts. -/
theorem process_query_retry_bound_witness :
    process_query (fun _ => "MATCH bad") (fun _ => Except.error "syntax error") 2 =
      (QueryOutcome.failure "syntax error", 3) :=
  process_query_retry_bound (fun _ => "MATCH bad")
    (fun _ => Except.error "syntax error") (fun _ => "syntax error")
    (fun _ => rfl) 2

/-! ## Grounding and response composition -/

/-- The answer record returned across the query-engine boundary
(RAG_SERVICE.md: `QueryResponse` with `response`, `node_ids` and an
optional `cypher_query`). -/
structure QueryResponse where
  response : String
  node_ids : List String
  cypher_query : Option String
deriving DecidableEq

/-- Modelled from the spec: the fixed naming convention recognizing result
columns that hold entity identifiers. -/
def isIdColumn (c : String) : Bool :=
  c == "id" || String.endsWith c ".id"

/-- De-duplication keeping the first occurrence of each identifier. -/
def dedupFirst : List String → List String → List String
  | _, [] => []
  | seen, x :: xs =>
    if x ∈ seen then dedupFirst seen xs else x :: dedupFirst (x :: seen) xs

/-- Modelled from the spec: `extract_node_ids(results)` collects every value
found in an identifier column of any row, ordered by first occurrence and
de-duplicated. -/
def extract_node_ids (rows : List Row) : List String :=
  dedupFirst [] ((rows.map (fun r => (r.filter (fun p => isIdColumn p.1)).map Prod.snd)).flatten)

/-- Modelled from the spec: the fixed response text used when a query
executed without error but returned zero rows. -/
def noResultsResponse (question : String) : String :=
  "No results found for: " ++ question

/-- Modelled from the spec: `generate_response(question, results)` in mock
mode: an explicit not-found sentence when the result set is empty, else a
templated sentence with the row count and the first few row values. -/
def generate_response (question : String) (rows : List Row) : String :=
  if rows.isEmpty then
    noResultsResponse question
  else
    "Found " ++ toString rows.length ++ " results for: " ++ question ++ " — " ++
      String.intercalate "; " ((rows.take 3).map (fun r =>
        String.intercalate ", " (r.map Prod.snd)))

/-- Modelled from the spec: the end-to-end query pipeline: run the retry
loop, then either compose the grounded answer from the executed query's
rows or surface a terminal error carrying the last diagnostic. -/
def rag_process (translate : Nat → String) (exec : String → Except String (List Row))
    (question : String) (maxRetries : Nat) : Except String QueryResponse :=
  match (process_query translate exec maxRetries).1 with
  | QueryOutcome.success q rows =>
    Except.ok ⟨generate_response question rows, extract_node_ids rows, some q⟩
  | QueryOutcome.failure d =>
    Except.error ("Query failed after retries: " ++ d)

/-- Claim C4: whenever the retry loop ends in a successful execution with
zero result rows, the composed answer record has an empty `node_ids` list
and its response text is the fixed sentence explicitly stating that nothing
was found. -/
theorem empty_result_grounding (translate : Nat → String)
    (exec : String → Except String (List Row)) (question qs : String) (maxRetries : Nat)
    (h : (process_query translate exec maxRetries).1 = QueryOutcome.success qs []) :
    rag_process translate exec question maxRetries =
      Except.ok ⟨noResultsResponse question, [], some qs⟩ := by
  unfold rag_process
  rw [h]
  simp [generate_response, extract_node_ids, dedupFirst]

/-- Witness for C4: a store that answers the first query with zero rows
yields an answer record with no identifiers and the not-found sentence. -/
theorem empty_result_grounding_witness :
    rag_process (fun _ => "MATCH (c:Class) RETURN c.id") (fun _ => Except.ok [])
        "What classes are in the codebase?" 2 =
      Except.ok ⟨noResultsResponse "What classes are in the codebase?", [],
        some "MATCH (c:Class) RETURN c.id"⟩ :=
  empty_result_grounding (fun _ => "MATCH (c:Class) RETURN c.id")
    (fun _ => Except.ok []) "What classes are in the codebase?"
    "MATCH (c:Class) RETURN c.id" 2 rfl

/-- Claim C5: an execution that completes without error — even with zero
rows — is never retried: the loop performs exactly one attempt, reports the
first query's success, and the pipeline proceeds directly to response
composition instead of re-generating. -/
theorem empty_success_not_retried (translate : Nat → String)
    (exec : String → Except String (List Row)) (question : String)
    (rows : List Row) (maxRetries : Nat)
    (h : exec (translate 0) = Except.ok rows) :
    process_query translate exec maxRetries = (QueryOutcome.success (translate 0) rows, 1) ∧
    rag_process translate exec question maxRetries =
      Except.ok ⟨generate_response question rows, extract_node_ids rows, some (translate 0)⟩ := by
  have hloop : process_query translate exec maxRetries =
      (QueryOutcome.success (translate 0) rows, 1) := by
    cases maxRetries with
    | zero => simp [process_query, attemptLoop, h]
    | succ n => simp [process_query, attemptLoop, h]
  refine ⟨hloop, ?_⟩
  unfold rag_process
  rw [hloop]

/-- Witness for C5: a store that succeeds with zero rows on the first query
produces a single attempt and a composed not-found answer. -/
theorem empty_success_not_retried_witness :
    process_query (fun _ => "MATCH (f:File) RETURN f.id") (fun _ => Except.ok []) 2 =
      (QueryOutcome.success "MATCH (f:File) RETURN f.id" [], 1) ∧
    rag_process (fun _ => "MATCH (f:File) RETURN f.id") (fun _ => Except.ok [])
        "What files are in the repository?" 2 =
      Except.ok ⟨generate_response "What files are in the repository?" [],
        extract_node_ids [], some "MATCH (f:File) RETURN f.id"⟩ :=
  empty_success_not_retried (fun _ => "MATCH (f:File) RETURN f.id")
    (fun _ => Except.ok []) "What files are in the repository?" [] 2 rfl

/-! ## Graph data model (frontend types/index.ts and backend schema) -/

/-- Node types of the knowledge graph, from `frontend/types/index.ts`:
`NodeType = 'file' | 'class' | 'function'` (the backend schema uses the
same three labels File, Class, Function). `class` is a reserved word in
Lean, hence the constructor `cls`. -/
inductive NodeType where
  | file
  | cls
  | function
deriving DecidableEq

/-- Edge types, from `frontend/types/index.ts`:
`EdgeType = 'CONTAINS' | 'DEFINES' | 'CALLS'`. -/
inductive EdgeType where
  | CONTAINS
  | DEFINES
  | CALLS
deriving DecidableEq

/-- A graph node as exchanged with the frontend (`GraphNode` in
`frontend/types/index.ts`, data payload elided to the label). -/
structure GraphNode where
  id : String
  type : NodeType
  label : String
deriving DecidableEq

/-- A graph edge as exchanged with the frontend (`GraphEdge` in
`frontend/types/index.ts`). -/
structure GraphEdge where
  id : String
  source : String
  target : String
  type : EdgeType
deriving DecidableEq

/-- Claim C7: the graph exchanged over the storage and query boundaries
uses exactly three node types (file, class, function) and exactly three
edge types (CONTAINS, DEFINES, CALLS): the three members of each type are
pairwise distinct, every node carries one of the three node types, and
every edge carries one of the three edge types — no other type exists. -/
theorem graph_types_closed :
    (NodeType.file ≠ NodeType.cls ∧ NodeType.cls ≠ NodeType.function ∧
      NodeType.file ≠ NodeType.function) ∧
    (EdgeType.CONTAINS ≠ EdgeType.DEFINES ∧ EdgeType.DEFINES ≠ EdgeType.CALLS ∧
      EdgeType.CONTAINS ≠ EdgeType.CALLS) ∧
    (∀ n : GraphNode,
      n.type = NodeType.file ∨ n.type = NodeType.cls ∨ n.type = NodeType.function) ∧
    (∀ e : GraphEdge,
      e.type = EdgeType.CONTAINS ∨ e.type = EdgeType.DEFINES ∨ e.type = EdgeType.CALLS) := by
  refine ⟨by decide, by decide, ?_, ?_⟩
  · intro n
    cases hn : n.type <;> simp
  · intro e
    cases he : e.type <;> simp

/-! ## Entity extraction (modelled from the spec) -/

/-- Modelled from the spec: a function definition node of the externally
supplied syntax tree (parse-tree generation is out of scope per §1): name,
parameter-signature string, optional docstring, 1-based inclusive line
range, and the list of callee names occurring at call sites in its body. -/
structure FuncDef where
  name : String
  args : String
  docstring : Option String
  startLine : Nat
  endLine : Nat
  calls : List String
deriving DecidableEq

/-- Modelled from the spec: a class definition node of the syntax tree with
its lexically nested method definitions. -/
structure ClassDef where
  name : String
  startLine : Nat
  endLine : Nat
  methods : List FuncDef
deriving DecidableEq

/-- Modelled from the spec: one parsed source file handed to the Entity
Extractor: repository-relative path, language tag, and its top-level class
and function definitions. -/
structure FileTree where
  path : String
  language : String
  classes : List ClassDef
  functions : List FuncDef
deriving DecidableEq

/-- Modelled from the spec: a transient entity record produced by the
Entity Extractor (File, Class or Function node with the properties of the
backend schema in §3). -/
structure Entity where
  id : String
  kind : NodeType
  name : String
  path : String
  args : String
  docstring : Option String
  startLine : Nat
  endLine : Nat
deriving DecidableEq

/-- Modelled from the spec (§9): deterministic identifier of a File,
derived from the repository-relative path. -/
def fileId (path : String) : String := "file:" ++ path

/-- Modelled from the spec (§9): deterministic identifier of a Class,
a normalized tuple of path, kind, name and start line. -/
def classId (path name : String) (startLine : Nat) : String :=
  "class:" ++ path ++ ":" ++ name ++ ":" ++ toString startLine

/-- Modelled from the spec (§9): deterministic identifier of a Function. -/
def funcId (path name : String) (startLine : Nat) : String :=
  "func:" ++ path ++ ":" ++ name ++ ":" ++ toString startLine

/-- The File entity produced for one ingested source file. -/
def fileEntity (t : FileTree) : Entity :=
  ⟨fileId t.path, NodeType.file, t.path, t.path, "", none, 0, 0⟩

/-- The Class entity produced for one class definition. -/
def classEntity (path : String) (c : ClassDef) : Entity :=
  ⟨classId path c.name c.startLine, NodeType.cls, c.name, path, "", none,
    c.startLine, c.endLine⟩

/-- The Function entity produced for one function or method definition. -/
def funcEntity (path : String) (f : FuncDef) : Entity :=
  ⟨funcId path f.name f.startLine, NodeType.function, f.name, path, f.args,
    f.docstring, f.startLine, f.endLine⟩

/-- Modelled from the spec (§4.1): the Entity Extractor produces the File
entity first, then the Class entities, then the Function entities
(top-level functions, then methods) in source order. -/
def extract_entities (t : FileTree) : List Entity :=
  fileEntity t ::
    (t.classes.map (classEntity t.path) ++
     t.functions.map (funcEntity t.path) ++
     (t.classes.map (fun c => c.methods.map (funcEntity t.path))).flatten)

/-! ## Relationship building (modelled from the spec) -/

/-- A typed, directed relationship edge referencing entities by identifier. -/
structure Edge where
  src : String
  dst : String
  type : EdgeType
deriving DecidableEq

/-- The Function entities among a node list (the repository-wide function
index consulted during CALLS resolution). -/
def functionsOf (nodes : List Entity) : List Entity :=
  nodes.filter (fun e => e.kind == NodeType.function)

/-- Modelled from the spec (§4.2): resolve a callee name against the known
Function index, preferring a callee defined in the same file as the caller,
else the lexically first known function of that name; a name with no known
candidate resolves to none and produces no edge. -/
def resolveCallee (callerPath : String) (index : List Entity) (callee : String) :
    Option String :=
  let cands := index.filter (fun e => e.name == callee)
  match (cands.filter (fun e => e.path == callerPath)).head? with
  | some e => some e.id
  | none => cands.head?.map (fun e => e.id)

/-- CALLS edges of a single caller: one edge per call whose callee name
resolves; unresolved calls are dropped. -/
def callEdges (callerId callerPath : String) (calls : List String)
    (index : List Entity) : List Edge :=
  calls.filterMap (fun c =>
    (resolveCallee callerPath index c).map (fun cid => ⟨callerId, cid, EdgeType.CALLS⟩))

/-- Modelled from the spec (§4.2): the Relationship Builder emits CONTAINS
edges from the File to its classes and top-level functions, DEFINES edges
from each class to its methods, and CALLS edges resolved against the
repository-wide function index. -/
def build_relationships (t : FileTree) (index : List Entity) : List Edge :=
  (t.classes.map (fun c =>
    ⟨fileId t.path, classId t.path c.name c.startLine, EdgeType.CONTAINS⟩)) ++
  (t.functions.map (fun f =>
    ⟨fileId t.path, funcId t.path f.name f.startLine, EdgeType.CONTAINS⟩)) ++
  ((t.classes.map (fun c => c.methods.map (fun m =>
    ⟨classId t.path c.name c.startLine, funcId t.path m.name m.startLine,
      EdgeType.DEFINES⟩))).flatten) ++
  ((t.functions.map (fun f =>
    callEdges (funcId t.path f.name f.startLine) t.path f.calls index)).flatten) ++
  ((t.classes.map (fun c => (c.methods.map (fun m =>
    callEdges (funcId t.path m.name m.startLine) t.path m.calls index)).flatten)).flatten)

/-! ## Graph store adapter (modelled from the spec) -/

/-- The persisted graph: node and edge sets, kept as insertion-ordered
lists without duplicates (the store is key-addressed by identifier). -/
structure Graph where
  nodes : List Entity
  edges : List Edge
deriving DecidableEq

/-- The identifiers of the nodes currently stored. -/
def nodeIds (g : Graph) : List String := g.nodes.map (fun e => e.id)

/-- Idempotent upsert of one entity: a no-op when a node with the same
deterministic identifier is already stored. -/
def upsertEntity (g : Graph) (e : Entity) : Graph :=
  if e.id ∈ nodeIds g then g else { g with nodes := g.nodes ++ [e] }

/-- Modelled from the spec (§4.3): `upsert_entities` — idempotent batch
upsert keyed by deterministic identifier. -/
def upsert_entities (g : Graph) (es : List Entity) : Graph :=
  es.foldl upsertEntity g

/-- Idempotent upsert of one edge: a no-op when the same typed edge is
already stored. -/
def upsertEdge (g : Graph) (e : Edge) : Graph :=
  if e ∈ g.edges then g else { g with edges := g.edges ++ [e] }

/-- Modelled from the spec (§4.3): `upsert_relationships` — idempotent
batch upsert of typed edges. -/
def upsert_relationships (g : Graph) (es : List Edge) : Graph :=
  es.foldl upsertEdge g

/-- Modelled from the spec: ingesting one parsed file: extract its
entities, upsert them, build relationships against the function index of
the stored graph (all functions ingested so far, this file included), and
upsert the resulting edges. -/
def ingest (g : Graph) (t : FileTree) : Graph :=
  let g1 := upsert_entities g (extract_entities t)
  upsert_relationships g1 (build_relationships t (functionsOf g1.nodes))

/-! ## Upsert lemmas -/

lemma nodes_upsertEdge (g : Graph) (e : Edge) : (upsertEdge g e).nodes = g.nodes := by
  unfold upsertEdge
  split <;> rfl

lemma nodes_upsert_relationships (g : Graph) (es : List Edge) :
    (upsert_relationships g es).nodes = g.nodes := by
  induction es generalizing g with
  | nil => rfl
  | cons e es ih =>
    show (upsert_relationships (upsertEdge g e) es).nodes = g.nodes
    rw [ih, nodes_upsertEdge]

lemma edges_upsertEntity (g : Graph) (e : Entity) : (upsertEntity g e).edges = g.edges := by
  unfold upsertEntity
  split <;> rfl

lemma edges_upsert_entities (g : Graph) (es : List Entity) :
    (upsert_entities g es).edges = g.edges := by
  induction es generalizing g with
  | nil => rfl
  | cons e es ih =>
    show (upsert_entities (upsertEntity g e) es).edges = g.edges
    rw [ih, edges_upsertEntity]

lemma mem_nodeIds_upsertEntity_of_mem (g : Graph) (e : Entity) (x : String)
    (hx : x ∈ nodeIds g) : x ∈ nodeIds (upsertEntity g e) := by
  unfold upsertEntity
  split
  · exact hx
  · simp only [nodeIds, List.map_append, List.mem_append] at hx ⊢
    exact Or.inl hx

lemma mem_nodeIds_upsertEntity_self (g : Graph) (e : Entity) :
    e.id ∈ nodeIds (upsertEntity g e) := by
  unfold upsertEntity
  split
  · assumption
  · simp [nodeIds]

lemma mem_nodeIds_upsert_entities_of_mem (g : Graph) (es : List Entity) (x : String)
    (hx : x ∈ nodeIds g) : x ∈ nodeIds (upsert_entities g es) := by
  induction es generalizing g with
  | nil => exact hx
  | cons e es ih =>
    show x ∈ nodeIds (upsert_entities (upsertEntity g e) es)
    exact ih (upsertEntity g e) (mem_nodeIds_upsertEntity_of_mem g e x hx)

lemma mem_nodeIds_upsert_entities (g : Graph) (es : List Entity) (e : Entity)
    (he : e ∈ es) : e.id ∈ nodeIds (upsert_entities g es) := by
  induction es generalizing g with
  | nil => cases he
  | cons x xs ih =>
    show e.id ∈ nodeIds (upsert_entities (upsertEntity g x) xs)
    rcases List.mem_cons.mp he with rfl | h2
    · exact mem_nodeIds_upsert_entities_of_mem (upsertEntity g e) xs e.id
        (mem_nodeIds_upsertEntity_self g e)
    · exact ih (upsertEntity g x) h2

lemma upsert_entities_eq_self (g : Graph) (es : List Entity)
    (h : ∀ e ∈ es, e.id ∈ nodeIds g) : upsert_entities g es = g := by
  induction es generalizing g with
  | nil => rfl
  | cons e es ih =>
    have he : upsertEntity g e = g := by
      unfold upsertEntity
      rw [if_pos (h e (List.mem_cons_self e es))]
    show upsert_entities (upsertEntity g e) es = g
    rw [he]
    exact ih g (fun x hx => h x (List.mem_cons_of_mem e hx))

lemma mem_edges_upsertEdge_of_mem (g : Graph) (x e : Edge) (hx : x ∈ g.edges) :
    x ∈ (upsertEdge g e).edges := by
  unfold upsertEdge
  split
  · exact hx
  · simp only [List.mem_append]
    exact Or.inl hx

lemma mem_edges_upsertEdge_self (g : Graph) (e : Edge) : e ∈ (upsertEdge g e).edges := by
  unfold upsertEdge
  split
  · assumption
  · simp

lemma mem_edges_upsert_relationships_of_mem (g : Graph) (es : List Edge) (x : Edge)
    (hx : x ∈ g.edges) : x ∈ (upsert_relationships g es).edges := by
  induction es generalizing g with
  | nil => exact hx
  | cons e es ih =>
    show x ∈ (upsert_relationships (upsertEdge g e) es).edges
    exact ih (upsertEdge g e) (mem_edges_upsertEdge_of_mem g x e hx)

lemma mem_edges_upsert_relationships (g : Graph) (es : List Edge) (e : Edge)
    (he : e ∈ es) : e ∈ (upsert_relationships g es).edges := by
  induction es generalizing g with
  | nil => cases he
  | cons x xs ih =>
    show e ∈ (upsert_relationships (upsertEdge g x) xs).edges
    rcases List.mem_cons.mp he with rfl | h2
    · exact mem_edges_upsert_relationships_of_mem (upsertEdge g e) xs e
        (mem_edges_upsertEdge_self g e)
    · exact ih (upsertEdge g x) h2

lemma upsert_relationships_eq_self (g : Graph) (es : List Edge)
    (h : ∀ e ∈ es, e ∈ g.edges) : upsert_relationships g es = g := by
  induction es generalizing g with
  | nil => rfl
  | cons e es ih =>
    have he : upsertEdge g e = g := by
      unfold upsertEdge
      rw [if_pos (h e (List.mem_cons_self e es))]
    show upsert_relationships (upsertEdge g e) es = g
    rw [he]
    exact ih g (fun x hx => h x (List.mem_cons_of_mem e hx))

lemma mem_edges_upsert_relationships_cases (g : Graph) (es : List Edge) (e : Edge)
    (h : e ∈ (upsert_relationships g es).edges) : e ∈ g.edges ∨ e ∈ es := by
  induction es generalizing g with
  | nil => exact Or.inl h
  | cons x xs ih =>
    have h' : e ∈ (upsert_relationships (upsertEdge g x) xs).edges := h
    rcases ih (upsertEdge g x) h' with h1 | h2
    · unfold upsertEdge at h1
      split at h1
      · exact Or.inl h1
      · simp only [List.mem_append, List.mem_singleton] at h1
        rcases h1 with h1 | rfl
        · exact Or.inl h1
        · exact Or.inr (List.mem_cons_self e xs)
    · exact Or.inr (List.mem_cons_of_mem x h2)

/-- The expansion of `ingest` used by the idempotence and integrity proofs. -/
lemma ingest_eq (g : Graph) (t : FileTree) :
    ingest g t = upsert_relationships (upsert_entities g (extract_entities t))
      (build_relationships t (functionsOf (upsert_entities g (extract_entities t)).nodes)) :=
  rfl

/-- Claim C2: ingesting the same unchanged parsed file twice is idempotent:
the second ingestion reproduces the same deterministic Class/Function/File
identifiers and leaves the stored node and edge sets unchanged, so for
every graph state `g` and parsed file `t`,
`ingest (ingest g t) t = ingest g t`. -/
theorem ingest_idempotent (g : Graph) (t : FileTree) :
    ingest (ingest g t) t = ingest g t := by
  have hg2 : ingest g t = upsert_relationships (upsert_entities g (extract_entities t))
      (build_relationships t (functionsOf (upsert_entities g (extract_entities t)).nodes)) :=
    ingest_eq g t
  set E := extract_entities t with hE
  set g1 := upsert_entities g E with hg1
  set R := build_relationships t (functionsOf g1.nodes) with hR
  set g2 := upsert_relationships g1 R with hg2def
  have hn2 : g2.nodes = g1.nodes := nodes_upsert_relationships g1 R
  have hids : ∀ e ∈ E, e.id ∈ nodeIds g2 := by
    intro e he
    have h1 : e.id ∈ nodeIds g1 := mem_nodeIds_upsert_entities g E e he
    simp only [nodeIds, hn2]
    simpa only [nodeIds] using h1
  have h1 : upsert_entities g2 E = g2 := upsert_entities_eq_self g2 E hids
  rw [hg2, ingest_eq g2 t, h1, hn2, ← hR]
  exact upsert_relationships_eq_self g2 R
    (fun e he => mem_edges_upsert_relationships g1 R e he)

/-! ## Referential integrity -/

lemma mem_of_head?_eq_some {α : Type} {l : List α} {e : α} (h : l.head? = some e) :
    e ∈ l := by
  cases l with
  | nil => simp at h
  | cons x xs =>
    simp only [List.head?_cons, Option.some.injEq] at h
    subst h
    exact List.mem_cons_self x xs

lemma resolveCallee_mem (callerPath : String) (index : List Entity) (callee cid : String)
    (h : resolveCallee callerPath index callee = some cid) :
    ∃ en ∈ index, en.id = cid := by
  unfold resolveCallee at h
  dsimp only at h
  split at h
  case h_1 en heq =>
    have hmem : en ∈ (index.filter (fun e => e.name == callee)).filter
        (fun e => e.path == callerPath) := mem_of_head?_eq_some heq
    refine ⟨en, List.mem_of_mem_filter (List.mem_of_mem_filter hmem), ?_⟩
    exact Option.some.inj h
  case h_2 heq =>
    rcases Option.map_eq_some'.mp h with ⟨en, hen, hid⟩
    exact ⟨en, List.mem_of_mem_filter (mem_of_head?_eq_some hen), hid⟩

lemma extract_mem_file (t : FileTree) : fileEntity t ∈ extract_entities t :=
  List.mem_cons_self _ _

lemma extract_mem_class (t : FileTree) (c : ClassDef) (hc : c ∈ t.classes) :
    classEntity t.path c ∈ extract_entities t := by
  simp only [extract_entities, List.mem_cons, List.mem_append, List.mem_map]
  exact Or.inr (Or.inl (Or.inl ⟨c, hc, rfl⟩))

lemma extract_mem_func (t : FileTree) (f : FuncDef) (hf : f ∈ t.functions) :
    funcEntity t.path f ∈ extract_entities t := by
  simp only [extract_entities, List.mem_cons, List.mem_append, List.mem_map]
  exact Or.inr (Or.inl (Or.inr ⟨f, hf, rfl⟩))

lemma extract_mem_method (t : FileTree) (c : ClassDef) (m : FuncDef)
    (hc : c ∈ t.classes) (hm : m ∈ c.methods) :
    funcEntity t.path m ∈ extract_entities t := by
  simp only [extract_entities, List.mem_cons, List.mem_append, List.mem_flatten,
    List.mem_map]
  exact Or.inr (Or.inr ⟨c.methods.map (funcEntity t.path), ⟨c, hc, rfl⟩,
    List.mem_map.mpr ⟨m, hm, rfl⟩⟩)

/-- Both endpoints of every edge the Relationship Builder emits are
identifiers of entities extracted from the file or functions of the index. -/
lemma build_relationships_endpoints (t : FileTree) (index : List Entity)
    (ids : List String)
    (hE : ∀ en ∈ extract_entities t, en.id ∈ ids)
    (hI : ∀ en ∈ index, en.id ∈ ids) :
    ∀ e ∈ build_relationships t index, e.src ∈ ids ∧ e.dst ∈ ids := by
  intro e he
  simp only [build_relationships, List.mem_append, List.mem_flatten, List.mem_map,
    callEdges, List.mem_filterMap, Option.map_eq_some'] at he
  rcases he with (((hcls | hfn) | hdef) | hcallf) | hcallm
  · rcases hcls with ⟨c, hc, rfl⟩
    exact ⟨hE (fileEntity t) (extract_mem_file t),
      hE (classEntity t.path c) (extract_mem_class t c hc)⟩
  · rcases hfn with ⟨f, hf, rfl⟩
    exact ⟨hE (fileEntity t) (extract_mem_file t),
      hE (funcEntity t.path f) (extract_mem_func t f hf)⟩
  · rcases hdef with ⟨l, ⟨c, hc, rfl⟩, hl⟩
    rcases List.mem_map.mp hl with ⟨m, hm, rfl⟩
    exact ⟨hE (classEntity t.path c) (extract_mem_class t c hc),
      hE (funcEntity t.path m) (extract_mem_method t c m hc hm)⟩
  · rcases hcallf with ⟨l, ⟨f, hf, rfl⟩, hl⟩
    rcases List.mem_filterMap.mp hl with ⟨callee, hcallee, hres⟩
    rcases Option.map_eq_some'.mp hres with ⟨cid, hcid, rfl⟩
    rcases resolveCallee_mem t.path index callee cid hcid with ⟨en, hen, hid⟩
    exact ⟨hE (funcEntity t.path f) (extract_mem_func t f hf), hid ▸ hI en hen⟩
  · rcases hcallm with ⟨l, ⟨c, hc, rfl⟩, hl⟩
    rcases List.mem_flatten.mp hl with ⟨l2, hl2, hel2⟩
    rcases List.mem_map.mp hl2 with ⟨m, hm, rfl⟩
    rcases List.mem_filterMap.mp hel2 with ⟨callee, hcallee, hres⟩
    rcases Option.map_eq_some'.mp hres with ⟨cid, hcid, rfl⟩
    rcases resolveCallee_mem t.path index callee cid hcid with ⟨en, hen, hid⟩
    exact ⟨hE (funcEntity t.path m) (extract_mem_method t c m hc hm), hid ▸ hI en hen⟩

/-- Referential integrity of a stored graph: every edge references only
identifiers of stored nodes (no dangling endpoints). -/
def RefIntegrity (g : Graph) : Prop :=
  ∀ e ∈ g.edges, e.src ∈ nodeIds g ∧ e.dst ∈ nodeIds g

instance (g : Graph) : Decidable (RefIntegrity g) := by
  unfold RefIntegrity
  exact List.decidableBAll _ _

/-- Claim C3: ingestion preserves referential integrity: starting from a
graph whose edges all reference stored nodes, every relationship edge
produced by ingesting a file (CONTAINS, DEFINES or CALLS) has both
endpoints among the entities of the same or a prior ingestion batch;
in particular a call whose callee does not resolve yields no edge, so the
graph never contains an edge referencing a non-existent node. -/
theorem ingest_ref_integrity (g : Graph) (t : FileTree) (h : RefIntegrity g) :
    RefIntegrity (ingest g t) := by
  rw [ingest_eq g t]
  set E := extract_entities t with hE
  set g1 := upsert_entities g E with hg1
  set R := build_relationships t (functionsOf g1.nodes) with hR
  intro e he
  have hnodes : (upsert_relationships g1 R).nodes = g1.nodes :=
    nodes_upsert_relationships g1 R
  have hids : nodeIds (upsert_relationships g1 R) = nodeIds g1 := by
    simp only [nodeIds, hnodes]
  rw [hids]
  rcases mem_edges_upsert_relationships_cases g1 R e he with h1 | h2
  · rw [hg1, edges_upsert_entities] at h1
    rcases h e h1 with ⟨hsrc, hdst⟩
    exact ⟨mem_nodeIds_upsert_entities_of_mem g E e.src hsrc,
      mem_nodeIds_upsert_entities_of_mem g E e.dst hdst⟩
  · refine build_relationships_endpoints t (functionsOf g1.nodes) (nodeIds g1) ?_ ?_ e h2
    · intro en hen
      exact mem_nodeIds_upsert_entities g E en hen
    · intro en hen
      have : en ∈ g1.nodes := List.mem_of_mem_filter hen
      exact List.mem_map.mpr ⟨en, this, rfl⟩

/-- Witness for C3: ingesting a two-function file (one call resolving, one
callee unknown) into the empty graph keeps referential integrity. -/
theorem ingest_ref_integrity_witness :
    RefIntegrity ⟨[], []⟩ ∧
    RefIntegrity (ingest ⟨[], []⟩
      ⟨"calculator.py", "python", [],
        [⟨"a", "", none, 1, 2, ["b", "c"]⟩, ⟨"b", "", none, 4, 5, []⟩]⟩) :=
  ⟨by decide, ingest_ref_integrity ⟨[], []⟩
    ⟨"calculator.py", "python", [],
      [⟨"a", "", none, 1, 2, ["b", "c"]⟩, ⟨"b", "", none, 4, 5, []⟩]⟩ (by decide)⟩

/-! ## Line-range validity -/

/-- Well-formedness of the externally supplied syntax tree: every class and
function node spans a forward line range (the parser reports 1-based
inclusive positions with start at or before end). -/
def TreeWF (t : FileTree) : Prop :=
  (∀ c ∈ t.classes, c.startLine ≤ c.endLine ∧ ∀ m ∈ c.methods, m.startLine ≤ m.endLine) ∧
  (∀ f ∈ t.functions, f.startLine ≤ f.endLine)

instance (t : FileTree) : Decidable (TreeWF t) := by
  unfold TreeWF
  exact instDecidableAnd

/-- Claim C6: every Class and every Function entity produced by extraction
from a well-formed syntax tree satisfies `start_line ≤ end_line`, the line
numbers being copied verbatim from the parse positions of the source file
at ingestion time. -/
theorem extracted_line_ranges_valid (t : FileTree) (h : TreeWF t) :
    ∀ e ∈ extract_entities t,
      (e.kind = NodeType.cls ∨ e.kind = NodeType.function) →
        e.startLine ≤ e.endLine := by
  intro e he _hk
  simp only [extract_entities, List.mem_cons, List.mem_append, List.mem_map,
    List.mem_flatten] at he
  rcases he with rfl | ((⟨c, hc, rfl⟩ | ⟨f, hf, rfl⟩) | ⟨l, ⟨c, hc, rfl⟩, hl⟩)
  · exact Nat.le_refl 0
  · exact (h.1 c hc).1
  · exact h.2 f hf
  · rcases List.mem_map.mp hl with ⟨m, hm, rfl⟩
    exact (h.1 c hc).2 m hm

/-- Witness for C6: the Calculator scenario file is well-formed and every
extracted class or function entity has a valid line range. -/
theorem extracted_line_ranges_valid_witness :
    TreeWF ⟨"calculator.py", "python",
        [⟨"Calculator", 1, 10, [⟨"add", "a, b", some "Add two numbers.", 2, 4, []⟩]⟩],
        []⟩ ∧
    ∀ e ∈ extract_entities ⟨"calculator.py", "python",
        [⟨"Calculator", 1, 10, [⟨"add", "a, b", some "Add two numbers.", 2, 4, []⟩]⟩],
        []⟩,
      (e.kind = NodeType.cls ∨ e.kind = NodeType.function) →
        e.startLine ≤ e.endLine :=
  ⟨by decide, extracted_line_ranges_valid ⟨"calculator.py", "python",
    [⟨"Calculator", 1, 10, [⟨"add", "a, b", some "Add two numbers.", 2, 4, []⟩]⟩],
    []⟩ (by decide)⟩

/-! ## Chat frontend (ChatSidebar, src/unnamed/part_000) -/

/-- The JS `String.prototype.trim` used by the components, modelled
structurally over the character list: leading and trailing whitespace
removed. -/
def strTrim (s : String) : String :=
  ⟨((s.data.dropWhile Char.isWhitespace).reverse.dropWhile Char.isWhitespace).reverse⟩

/-- Message roles of the chat (`Message.role` in `frontend/types/index.ts`). -/
inductive Role where
  | user
  | assistant
deriving DecidableEq

/-- A chat message (`Message` in `frontend/types/index.ts`; the timestamp
is elided, the generated id kept as a string). -/
structure Message where
  id : String
  role : Role
  content : String
  nodeIds : Option (List String)
deriving DecidableEq

/-- The body of the `/chat` response consumed by the frontend
(`sendChatMessage` result: `response` text and `node_ids`). -/
structure ChatResponse where
  response : String
  node_ids : List String
deriving DecidableEq

/-- The component state of `ChatSidebar` that `handleSend` reads and
writes: the message list, the input text and the loading flag. -/
structure ChatState where
  messages : List Message
  input : String
  loading : Bool
deriving DecidableEq

/-- The `handleSend` handler of `ChatSidebar` (src/unnamed/part_000): a
blank input or an in-flight request returns unchanged; otherwise the user
message is appended, the input cleared, and after `sendChatMessage`
resolves the assistant message is appended — built from the `response` and
`node_ids` fields on success, or an `Error: `-prefixed content on throw —
and the loading flag is reset in the `finally` block. The api call is
modelled as a function from the question to a success or thrown message,
and `Date.now()` as the `now` argument used in the generated ids. -/
def handleSend (st : ChatState) (now : Nat)
    (api : String → Except String ChatResponse) : ChatState :=
  if strTrim st.input = "" ∨ st.loading = true then st
  else
    match api (strTrim st.input) with
    | Except.ok resp =>
      { messages := st.messages ++
          [⟨"user-" ++ toString now, Role.user, strTrim st.input, none⟩,
           ⟨"assistant-" ++ toString now, Role.assistant, resp.response,
             some resp.node_ids⟩],
        input := "", loading := false }
    | Except.error msg =>
      { messages := st.messages ++
          [⟨"user-" ++ toString now, Role.user, strTrim st.input, none⟩,
           ⟨"error-" ++ toString now, Role.assistant, "Error: " ++ msg, none⟩],
        input := "", loading := false }

/-- Claim C8: when the query engine answers, the answer record carries a
response text and an ordered list of node identifiers, and `handleSend`
builds the appended assistant message from exactly those two fields of the
response: its content is the `response` field and its node references the
`node_ids` field. -/
theorem chat_answer_record_fields (st : ChatState) (now : Nat)
    (api : String → Except String ChatResponse) (resp : ChatResponse)
    (hinput : ¬ strTrim st.input = "") (hload : st.loading = false)
    (hapi : api (strTrim st.input) = Except.ok resp) :
    handleSend st now api =
      { messages := st.messages ++
          [⟨"user-" ++ toString now, Role.user, strTrim st.input, none⟩,
           ⟨"assistant-" ++ toString now, Role.assistant, resp.response,
             some resp.node_ids⟩],
        input := "", loading := false } := by
  unfold handleSend
  rw [if_neg (by simp [hinput, hload])]
  simp only [hapi]

/-- Witness for C8: a concrete successful response appends an assistant
message whose content and node chips come from the two response fields. -/
theorem chat_answer_record_fields_witness :
    handleSend ⟨[], "Show me all classes", false⟩ 7
        (fun _ => Except.ok ⟨"Found 1 results", ["class:calculator.py:Calculator:1"]⟩) =
      ⟨[⟨"user-7", Role.user, "Show me all classes", none⟩,
        ⟨"assistant-7", Role.assistant, "Found 1 results",
          some ["class:calculator.py:Calculator:1"]⟩], "", false⟩ := by
  have h := chat_answer_record_fields ⟨[], "Show me all classes", false⟩ 7
    (fun _ => Except.ok ⟨"Found 1 results", ["class:calculator.py:Calculator:1"]⟩)
    ⟨"Found 1 results", ["class:calculator.py:Calculator:1"]⟩
    (by decide) rfl rfl
  rw [h]
  decide

/-- Claim C9: the send handler never propagates an api exception and never
leaves the input disabled: whenever the guard passes, the resulting loading
flag is false on the success and the failure path alike, and on failure the
appended message has the assistant role and a content beginning with
`Error: ` followed by the thrown message. -/
theorem chat_error_handling (st : ChatState) (now : Nat)
    (api : String → Except String ChatResponse)
    (hinput : ¬ strTrim st.input = "") (hload : st.loading = false) :
    (handleSend st now api).loading = false ∧
    (∀ msg, api (strTrim st.input) = Except.error msg →
      handleSend st now api =
        { messages := st.messages ++
            [⟨"user-" ++ toString now, Role.user, strTrim st.input, none⟩,
             ⟨"error-" ++ toString now, Role.assistant, "Error: " ++ msg, none⟩],
          input := "", loading := false }) := by
  constructor
  · unfold handleSend
    rw [if_neg (by simp [hinput, hload])]
    cases hres : api (strTrim st.input) with
    | error msg => rfl
    | ok resp => rfl
  · intro msg hapi
    unfold handleSend
    rw [if_neg (by simp [hinput, hload])]
    simp only [hapi]

/-- Witness for C9: a concrete thrown api error resets the loading flag
and appends an assistant message prefixed with `Error: `. -/
theorem chat_error_handling_witness :
    (handleSend ⟨[], "hello", false⟩ 3
        (fun _ => Except.error "Failed to send message")).loading = false ∧
    handleSend ⟨[], "hello", false⟩ 3 (fun _ => Except.error "Failed to send message") =
      ⟨[⟨"user-3", Role.user, "hello", none⟩,
        ⟨"error-3", Role.assistant, "Error: Failed to send message", none⟩],
        "", false⟩ := by
  have h := chat_error_handling ⟨[], "hello", false⟩ 3
    (fun _ => Except.error "Failed to send message") (by decide) rfl
  refine ⟨h.1, ?_⟩
  rw [h.2 "Failed to send message" rfl]
  decide

/-! ## Ingestion panel (IngestionPanel, src/unnamed/part_001) -/

/-- The ingestion job status returned by `/ingest` (`JobStatus` consumed by
`IngestionPanel`). -/
structure JobStatus where
  status : String
  message : String
  files_processed : Nat
  nodes_created : Nat
  edges_created : Nat
deriving DecidableEq

/-- Character-list test that a list starts with a given pattern. -/
def charsStartWith : List Char → List Char → Bool
  | _, [] => true
  | [], _ :: _ => false
  | c :: cs, p :: ps => c == p && charsStartWith cs ps

/-- Character-list split on the slash separator (JS `split('/')`). -/
def splitOnSlash : List Char → List (List Char)
  | [] => [[]]
  | c :: cs =>
    if c == '/' then [] :: splitOnSlash cs
    else
      match splitOnSlash cs with
      | [] => [[c]]
      | s :: rest => (c :: s) :: rest

/-- Modelled from the spec: `isValidGitHubUrl` from `frontend/lib/utils.ts`
is not among the sources; per the README and the panel placeholder a valid
GitHub repository URL has the shape `https://github.com/owner/repository`
with non-empty owner and repository segments. -/
def isValidGitHubUrl (url : String) : Bool :=
  charsStartWith (strTrim url).data "https://github.com/".data &&
    match splitOnSlash ((strTrim url).data.drop "https://github.com/".data.length) with
    | [owner, repo] => !owner.isEmpty && !repo.isEmpty
    | _ => false

/-- The component state of `IngestionPanel` that `handleIngest` reads and
writes: the url input, the loading flag, the last job status and the error
banner. -/
structure IngestPanelState where
  repoUrl : String
  loading : Bool
  status : Option JobStatus
  error : Option String
deriving DecidableEq

/-- The `handleIngest` handler of `IngestionPanel` (src/unnamed/part_001):
a blank url sets the first error banner and returns; a url rejected by
`isValidGitHubUrl` sets the second error banner and returns; only then is
`ingestRepository` called with the trimmed url, its result or thrown
message stored, and the loading flag reset in the `finally` block. The
returned flag records whether `ingestRepository` was invoked. -/
def handleIngest (st : IngestPanelState) (api : String → Except String JobStatus) :
    IngestPanelState × Bool :=
  if strTrim st.repoUrl = "" then
    ({ st with error := some "Please enter a repository URL" }, false)
  else if !isValidGitHubUrl st.repoUrl then
    ({ st with error := some "Please enter a valid GitHub repository URL" }, false)
  else
    match api (strTrim st.repoUrl) with
    | Except.ok result =>
      ({ st with loading := false, error := none, status := some result }, true)
    | Except.error msg =>
      ({ st with loading := false, error := some msg, status := none }, true)

/-- Claim C10: `handleIngest` issues an ingestion request only for inputs
accepted by `isValidGitHubUrl`: for every input that is blank after
trimming or not a valid GitHub repository URL, it sets an error banner,
performs no call to `ingestRepository`, and leaves the job status (and the
rest of the state apart from the error banner) unchanged. -/
theorem ingest_panel_validation (st : IngestPanelState)
    (api : String → Except String JobStatus)
    (h : strTrim st.repoUrl = "" ∨ isValidGitHubUrl st.repoUrl = false) :
    (handleIngest st api).2 = false ∧
    (∃ m, (handleIngest st api).1.error = some m) ∧
    (handleIngest st api).1.status = st.status ∧
    (handleIngest st api).1.repoUrl = st.repoUrl ∧
    (handleIngest st api).1.loading = st.loading := by
  unfold handleIngest
  rcases h with h | h
  · rw [if_pos h]
    exact ⟨rfl, ⟨"Please enter a repository URL", rfl⟩, rfl, rfl, rfl⟩
  · by_cases hb : strTrim st.repoUrl = ""
    · rw [if_pos hb]
      exact ⟨rfl, ⟨"Please enter a repository URL", rfl⟩, rfl, rfl, rfl⟩
    · rw [if_neg hb, if_pos (by simp [h])]
      exact ⟨rfl, ⟨"Please enter a valid GitHub repository URL", rfl⟩, rfl, rfl, rfl⟩

/-- Witness for C10: a non-blank input rejected by the validator produces
an error banner, no api call and an unchanged job status. -/
theorem ingest_panel_validation_witness :
    isValidGitHubUrl "http://example.com/foo" = false ∧
    (handleIngest ⟨"http://example.com/foo", false, none, none⟩
        (fun _ => Except.error "unreachable")).2 = false ∧
    (∃ m, (handleIngest ⟨"http://example.com/foo", false, none, none⟩
        (fun _ => Except.error "unreachable")).1.error = some m) ∧
    (handleIngest ⟨"http://example.com/foo", false, none, none⟩
        (fun _ => Except.error "unreachable")).1.status = none := by
  have h := ingest_panel_validation ⟨"http://example.com/foo", false, none, none⟩
    (fun _ => Except.error "unreachable") (Or.inr (by decide))
  exact ⟨by decide, h.1, h.2.1, h.2.2.1⟩
